import Mathlib

/-!
Verification of the Hackathon Todo repository's authorization core and
frontend API client.

The backend Request Authorization Gate exists in the artifact only as a
specification (constitution and feature specs); its definitions below are
modelled from the spec, as marked. The frontend definitions are translated
from `frontend/middleware.ts` and `frontend/lib/api.ts`.
-/

namespace AuthGate

/-- Modelled from the spec: the five internal failure classes of the error
taxonomy (spec section 7). The backend implementation is missing from the
artifact. -/
inductive FailureClass where
  | CredentialMissing
  | CredentialMalformed
  | SignatureInvalid
  | CredentialExpired
  | IdentityMismatch
deriving DecidableEq, Repr

/-- Modelled from the spec: a raw credential as seen by the Token Verifier.
It is either not a well-formed signed-token structure, or a well-formed
signed token carrying a principal, an expiry instant (seconds), and the
secret that produced its signature (an abstract model of a MAC: the
signature verifies against exactly the secret that created it). -/
inductive Credential where
  | malformed (raw : String)
  | wellFormed (principal : String) (expiry : Nat) (sigSecret : String)
deriving DecidableEq, Repr

/-- Modelled from the spec: the external issuer signs a {principal, expiry}
payload with a secret. With the abstract-MAC model of `Credential`, signing
records the signing secret in the token. -/
def sign (secret principal : String) (expiry : Nat) : Credential :=
  .wellFormed principal expiry secret

/-- Modelled from the spec (section 4.1, Token Verifier): a pure function of
(credential, secret, current time). Rejection conditions are checked in the
order the spec lists them: absence, malformation, signature, then expiry.
Expiry uses second granularity with strict `now >= exp` rejection, so a
token expiring exactly now is rejected. On success the embedded principal
is returned. -/
def verifyToken (secret : String) (now : Nat) (cred : Option Credential) :
    Except FailureClass String :=
  match cred with
  | none => .error .CredentialMissing
  | some (.malformed _) => .error .CredentialMalformed
  | some (.wellFormed principal expiry sigSecret) =>
    if sigSecret ≠ secret then .error .SignatureInvalid
    else if expiry ≤ now then .error .CredentialExpired
    else .ok principal

/-- Modelled from the spec (section 4.3): the per-request gate states. -/
inductive GateState where
  | Unauthenticated
  | TokenVerified (principal : String)
  | PathMatched (principal : String)
  | Authorized (principal : String)
  | Rejected (failure : FailureClass)
deriving DecidableEq, Repr

/-- The per-request inputs of the gate: the configured secret, the clock
reading, the credential from the Authorization header, and the identity
segment parsed from the resource path. -/
structure GateInput where
  secret : String
  now : Nat
  cred : Option Credential
  pathId : String
deriving DecidableEq, Repr

/-- Modelled from the spec (section 4.3): one transition of the gate state
machine. From `Unauthenticated` the Token Verifier runs; from
`TokenVerified` the Path-Identity Matcher compares the verified principal
byte-for-byte against the path identity; `PathMatched` promotes to
`Authorized`; `Authorized` and `Rejected` are terminal. -/
def gateStep (env : GateInput) : GateState → GateState
  | .Unauthenticated =>
    match verifyToken env.secret env.now env.cred with
    | .ok p => .TokenVerified p
    | .error f => .Rejected f
  | .TokenVerified p =>
    if p == env.pathId then .PathMatched p else .Rejected .IdentityMismatch
  | .PathMatched p => .Authorized p
  | s => s

/-- The state the gate reaches on a request: three transitions from
`Unauthenticated` always land in a terminal state. -/
def gateFinal (env : GateInput) : GateState :=
  gateStep env (gateStep env (gateStep env .Unauthenticated))

/-- An externally visible HTTP response: status code and message body. -/
structure HttpResponse where
  status : Nat
  message : String
deriving DecidableEq, Repr

/-- Modelled from the spec (section 7): the single generic message used for
every authentication failure. -/
def genericAuthMessage : String := "Unauthorized"

/-- Modelled from the spec (section 7): every internal failure class is
surfaced externally as 401 Unauthorized with the generic message. -/
def rejectionResponse (_ : FailureClass) : HttpResponse :=
  ⟨401, genericAuthMessage⟩

/-- An observable access to the Task Store, scoped to an owner principal. -/
inductive StoreEvent where
  | access (owner : String)
deriving DecidableEq, Repr

/-- Modelled from the spec: full request handling. The gate runs first; only
from the `Authorized` state is the downstream Task Store operation invoked,
scoped to the verified principal; every rejection yields the uniform 401
response and no storage event. -/
def handleRequest (env : GateInput) : HttpResponse × List StoreEvent :=
  match gateFinal env with
  | .Authorized p => (⟨200, "ok"⟩, [.access p])
  | .Rejected f => (rejectionResponse f, [])
  | _ => (⟨500, "internal"⟩, [])

/-- Ambient mutable state an impure implementation could read or write. -/
structure GateWorld where
  log : List String
deriving DecidableEq, Repr

/-- Modelled from the spec: the Token Verifier run against ambient mutable
state. The spec requires a pure function of (credential, secret, current
time), so the run neither reads nor writes the world. -/
def verifyTokenRun (w : GateWorld) (secret : String) (now : Nat)
    (cred : Option Credential) : GateWorld × Except FailureClass String :=
  (w, verifyToken secret now cred)

/-- The gate's terminal state, computed directly from the verifier outcome
and the path-identity comparison. -/
theorem gateFinal_eq (env : GateInput) :
    gateFinal env =
      match verifyToken env.secret env.now env.cred with
      | .error f => .Rejected f
      | .ok p =>
        if p == env.pathId then .Authorized p
        else .Rejected .IdentityMismatch := by
  unfold gateFinal gateStep
  cases verifyToken env.secret env.now env.cred with
  | error f => rfl
  | ok p =>
    by_cases h : (p == env.pathId) = true <;> simp [h]

theorem verifyToken_sign_ok (secret principal : String) (expiry now : Nat)
    (h : now < expiry) :
    verifyToken secret now (some (sign secret principal expiry)) =
      .ok principal := by
  simp [verifyToken, sign, Nat.not_le.mpr h]

/-- Claim C1: for a verified principal P and a path identity Q, the gate
authorizes exactly when P and Q are byte-for-byte (case-sensitive) equal:
it reaches `Authorized` when P == Q and `Rejected IdentityMismatch` when
P != Q. -/
theorem gate_path_identity_equality (secret P Q : String) (expiry now : Nat)
    (h : now < expiry) :
    gateFinal ⟨secret, now, some (sign secret P expiry), Q⟩ =
      if P == Q then .Authorized P else .Rejected .IdentityMismatch := by
  rw [gateFinal_eq, verifyToken_sign_ok secret P expiry now h]

/-- Claim C1 witness: with the same valid token for principal "u1", path
identity "u1" authorizes while the differently-cased "U1" is rejected with
`IdentityMismatch`. -/
theorem gate_path_identity_equality_witness :
    gateFinal ⟨"s", 0, some (sign "s" "u1" 1), "u1"⟩ = .Authorized "u1" ∧
    gateFinal ⟨"s", 0, some (sign "s" "u1" 1), "U1"⟩ =
      .Rejected .IdentityMismatch := by
  refine ⟨?_, ?_⟩
  · have h := gate_path_identity_equality "s" "u1" "u1" 1 0 (by decide)
    simpa using h
  · have h := gate_path_identity_equality "s" "u1" "U1" 1 0 (by decide)
    simpa using h

/-- Claim C2: a Task Store access scoped to owner p happens on a request
exactly when the gate reaches the `Authorized p` state; in particular a
request that fails token verification or the path-identity match ends in
`Rejected` and never triggers a storage access. -/
theorem storage_access_iff_authorized (env : GateInput) (p : String) :
    StoreEvent.access p ∈ (handleRequest env).2 ↔
      gateFinal env = .Authorized p := by
  unfold handleRequest
  cases hg : gateFinal env with
  | Authorized q => simp [eq_comm]
  | Unauthenticated => simp
  | TokenVerified q => simp
  | PathMatched q => simp
  | Rejected f => simp

/-- Claim C2 witness: on a request carrying a valid token for "u1" with
matching path identity "u1", the storage access scoped to "u1" occurs. -/
theorem storage_access_iff_authorized_witness :
    StoreEvent.access "u1" ∈
      (handleRequest ⟨"s", 0, some (sign "s" "u1" 1), "u1"⟩).2 :=
  (storage_access_iff_authorized ⟨"s", 0, some (sign "s" "u1" 1), "u1"⟩
    "u1").mpr rfl

/-- Claim C3: every rejected request, whichever of the five failure classes
occurred, produces the same externally visible response: status 401 with the
generic message, so the failure classes are indistinguishable on the wire. -/
theorem rejected_response_uniform (env : GateInput) (f : FailureClass)
    (h : gateFinal env = .Rejected f) :
    (handleRequest env).1 = ⟨401, genericAuthMessage⟩ := by
  unfold handleRequest
  rw [h]
  rfl

/-- Claim C3 witness: a request with no credential is rejected and receives
the uniform 401 response. -/
theorem rejected_response_uniform_witness :
    (handleRequest ⟨"s", 0, none, "u1"⟩).1 = ⟨401, genericAuthMessage⟩ :=
  rejected_response_uniform ⟨"s", 0, none, "u1"⟩ .CredentialMissing rfl

/-- Claim C4: round-trip — verifying a token that encodes (principal,
expiry) with the configured secret, at any instant strictly before the
expiry, succeeds and returns exactly that principal. -/
theorem verify_roundtrip (secret principal : String) (expiry now : Nat)
    (h : now < expiry) :
    verifyToken secret now (some (sign secret principal expiry)) =
      .ok principal :=
  verifyToken_sign_ok secret principal expiry now h

/-- Claim C4 witness: a token for "u1" expiring at 10, checked at 5 with the
same secret, yields "u1". -/
theorem verify_roundtrip_witness :
    verifyToken "s" 5 (some (sign "s" "u1" 10)) = .ok "u1" :=
  verify_roundtrip "s" "u1" 10 5 (by decide)

/-- Claim C5: a well-formed token signed with any secret different from the
configured one fails verification with `SignatureInvalid`, for every
principal and every expiry value. -/
theorem verify_wrong_secret (secret other principal : String)
    (expiry now : Nat) (h : other ≠ secret) :
    verifyToken secret now (some (sign other principal expiry)) =
      .error .SignatureInvalid := by
  simp [verifyToken, sign, h]

/-- Claim C5 witness: a token signed with "s2" against configured secret
"s1" fails with `SignatureInvalid`, even with its expiry already past. -/
theorem verify_wrong_secret_witness :
    verifyToken "s1" 10 (some (sign "s2" "u1" 0)) =
      .error .SignatureInvalid :=
  verify_wrong_secret "s1" "s2" "u1" 0 10 (by decide)

/-- Claim C6 counterexample: a token that is both expired (expiry 0, checked
at 10) and signed with the wrong secret fails with `SignatureInvalid`, not
`CredentialExpired` — the signature check precedes the expiry check, so the
claim's "regardless of whether the token's signature is valid" fails. -/
theorem verify_expired_cex :
    verifyToken "s1" 10 (some (sign "s2" "u1" 0)) ≠
      .error .CredentialExpired := by
  simp [verifyToken, sign]

/-- Claim C6 (amended): a token signed with the configured secret whose
expiry is at or before the verification instant (strict now >= exp at second
granularity, so a token expiring exactly now is rejected) fails verification
with `CredentialExpired`; when the signature is also invalid,
`SignatureInvalid` takes precedence. -/
theorem verify_expired (secret principal : String) (expiry now : Nat)
    (h : expiry ≤ now) :
    verifyToken secret now (some (sign secret principal expiry)) =
      .error .CredentialExpired := by
  simp [verifyToken, sign, h]

/-- Claim C6 witness: a token expiring exactly at the verification instant
is rejected as expired. -/
theorem verify_expired_witness :
    verifyToken "s" 5 (some (sign "s" "u1" 5)) =
      .error .CredentialExpired :=
  verify_expired "s" "u1" 5 5 (by decide)

/-- Claim C7: token verification is a deterministic pure function of the
(credential, secret, current time) triple: the ambient world is left
unchanged, the result does not depend on the world, and a second run on the
same triple — in particular on the same valid token — yields the same
result. -/
theorem verify_pure_deterministic (w w' : GateWorld) (secret : String)
    (now : Nat) (cred : Option Credential) :
    (verifyTokenRun w secret now cred).1 = w ∧
    (verifyTokenRun w secret now cred).2 =
      (verifyTokenRun w' secret now cred).2 ∧
    (verifyTokenRun ((verifyTokenRun w secret now cred).1)
        secret now cred).2 =
      (verifyTokenRun w secret now cred).2 :=
  ⟨rfl, rfl, rfl⟩

end AuthGate

namespace Frontend

/-- A JavaScript JSON value as produced by `JSON.parse`. A numeric literal is
kept as a (mantissa, decimal exponent) pair denoting mantissa * 10 ^ exp10;
the denoted value is zero exactly when the mantissa is zero, which is all
the client code observes of numbers (truthiness). -/
inductive JsonVal where
  | null
  | bool (b : Bool)
  | num (mantissa : Int) (exp10 : Int)
  | str (s : String)
  | arr (elems : List JsonVal)
  | obj (fields : List (String × JsonVal))
deriving Repr

/-- JSON insignificant whitespace: space, tab, line feed, carriage return. -/
def isJsonWs (c : Char) : Bool :=
  c == ' ' || c == '\t' || c == '\n' || c == '\r'

def skipWs : List Char → List Char
  | c :: cs => if isJsonWs c then skipWs cs else c :: cs
  | [] => []

def digitVal (c : Char) : Option Nat :=
  if '0' ≤ c ∧ c ≤ '9' then some (c.toNat - '0'.toNat) else none

def hexVal (c : Char) : Option Nat :=
  if '0' ≤ c ∧ c ≤ '9' then some (c.toNat - '0'.toNat)
  else if 'a' ≤ c ∧ c ≤ 'f' then some (c.toNat - 'a'.toNat + 10)
  else if 'A' ≤ c ∧ c ≤ 'F' then some (c.toNat - 'A'.toNat + 10)
  else none

/-- Leading decimal digits of the input, and the rest. -/
def takeDigits : List Char → List Nat × List Char
  | c :: cs =>
    match digitVal c with
    | some d =>
      let (ds, rest) := takeDigits cs
      (d :: ds, rest)
    | none => ([], c :: cs)
  | [] => ([], [])

def digitsToNat (ds : List Nat) : Nat :=
  ds.foldl (fun a d => a * 10 + d) 0

/-- Parse a JSON number literal (RFC 8259 grammar: optional minus, integer
part without leading zeros, optional fraction, optional exponent) into its
(mantissa, decimal exponent) pair and the remaining input. -/
def parseNumber (cs : List Char) : Option ((Int × Int) × List Char) :=
  let (neg, cs1) :=
    match cs with
    | '-' :: r => (true, r)
    | _ => (false, cs)
  let intPart : Option (List Nat × List Char) :=
    match cs1 with
    | '0' :: r => some ([0], r)
    | _ =>
      let (ds, rest) := takeDigits cs1
      if ds.isEmpty then none else some (ds, rest)
  match intPart with
  | none => none
  | some (ids, r1) =>
    let fracPart : Option (List Nat × List Char) :=
      match r1 with
      | '.' :: r2 =>
        let (fs, rest) := takeDigits r2
        if fs.isEmpty then none else some (fs, rest)
      | _ => some ([], r1)
    match fracPart with
    | none => none
    | some (fds, r3) =>
      let expPart : Option (Int × List Char) :=
        match r3 with
        | 'e' :: r4 | 'E' :: r4 =>
          let (esign, r5) :=
            match r4 with
            | '+' :: r6 => ((1 : Int), r6)
            | '-' :: r6 => ((-1 : Int), r6)
            | _ => ((1 : Int), r4)
          let (eds, rest) := takeDigits r5
          if eds.isEmpty then none
          else some (esign * (digitsToNat eds : Int), rest)
        | _ => some (0, r3)
      match expPart with
      | none => none
      | some (e, rest) =>
        let mag : Nat := digitsToNat (ids ++ fds)
        let mantissa : Int := if neg then -(mag : Int) else (mag : Int)
        some ((mantissa, e - (fds.length : Int)), rest)

/-- Body of a JSON string literal, after the opening quote: characters up to
the closing quote, processing the escape sequences `JSON.parse` accepts and
rejecting unescaped control characters. JavaScript strings may hold lone
UTF-16 surrogates, which Lean strings cannot; a `\uXXXX` escape denoting a
lone surrogate is mapped to U+FFFD. -/
def parseStringBody : Nat → List Char → List Char → Option (String × List Char)
  | 0, _, _ => none
  | fuel + 1, acc, c :: cs =>
    if c == '"' then some (String.mk acc.reverse, cs)
    else if c == '\\' then
      match cs with
      | 'u' :: h1 :: h2 :: h3 :: h4 :: rest =>
        match hexVal h1, hexVal h2, hexVal h3, hexVal h4 with
        | some a, some b, some c', some d =>
          let n := ((a * 16 + b) * 16 + c') * 16 + d
          if 0xD800 ≤ n ∧ n ≤ 0xDBFF then
            match rest with
            | '\\' :: 'u' :: g1 :: g2 :: g3 :: g4 :: rest2 =>
              match hexVal g1, hexVal g2, hexVal g3, hexVal g4 with
              | some a', some b', some c'', some d' =>
                let m := ((a' * 16 + b') * 16 + c'') * 16 + d'
                if 0xDC00 ≤ m ∧ m ≤ 0xDFFF then
                  let code := 0x10000 + (n - 0xD800) * 0x400 + (m - 0xDC00)
                  parseStringBody fuel (Char.ofNat code :: acc) rest2
                else
                  parseStringBody fuel
                    (Char.ofNat m :: Char.ofNat 0xFFFD :: acc) rest2
              | _, _, _, _ => none
            | _ => parseStringBody fuel (Char.ofNat 0xFFFD :: acc) rest
          else if 0xDC00 ≤ n ∧ n ≤ 0xDFFF then
            parseStringBody fuel (Char.ofNat 0xFFFD :: acc) rest
          else
            parseStringBody fuel (Char.ofNat n :: acc) rest
        | _, _, _, _ => none
      | e :: rest =>
        let esc : Option Char :=
          if e == '"' then some '"'
          else if e == '\\' then some '\\'
          else if e == '/' then some '/'
          else if e == 'b' then some (Char.ofNat 8)
          else if e == 'f' then some (Char.ofNat 12)
          else if e == 'n' then some '\n'
          else if e == 'r' then some '\r'
          else if e == 't' then some '\t'
          else none
        match esc with
        | some ch => parseStringBody fuel (ch :: acc) rest
        | none => none
      | [] => none
    else if c.toNat < 0x20 then none
    else parseStringBody fuel (c :: acc) cs
  | _ + 1, _, [] => none

mutual

/-- Parse one JSON value (fuel-bounded recursive descent over the RFC 8259
grammar, as `JSON.parse` accepts it), returning the value and the remaining
input. -/
def parseValue : Nat → List Char → Option (JsonVal × List Char)
  | 0, _ => none
  | fuel + 1, cs =>
    match skipWs cs with
    | 'n' :: 'u' :: 'l' :: 'l' :: rest => some (.null, rest)
    | 't' :: 'r' :: 'u' :: 'e' :: rest => some (.bool true, rest)
    | 'f' :: 'a' :: 'l' :: 's' :: 'e' :: rest => some (.bool false, rest)
    | '"' :: rest =>
      match parseStringBody (rest.length + 1) [] rest with
      | some (s, r) => some (.str s, r)
      | none => none
    | '[' :: rest =>
      match skipWs rest with
      | ']' :: r2 => some (.arr [], r2)
      | r2 =>
        match parseElems fuel r2 with
        | some (vs, r3) => some (.arr vs, r3)
        | none => none
    | '{' :: rest =>
      match skipWs rest with
      | '}' :: r2 => some (.obj [], r2)
      | r2 =>
        match parseFields fuel r2 with
        | some (fs, r3) => some (.obj fs, r3)
        | none => none
    | other =>
      match parseNumber other with
      | some ((m, e), rest) => some (.num m e, rest)
      | none => none

/-- Parse the elements of a non-empty JSON array, up to and including the
closing bracket. -/
def parseElems : Nat → List Char → Option (List JsonVal × List Char)
  | 0, _ => none
  | fuel + 1, cs =>
    match parseValue fuel cs with
    | none => none
    | some (v, r) =>
      match skipWs r with
      | ',' :: r2 =>
        match parseElems fuel r2 with
        | some (vs, r3) => some (v :: vs, r3)
        | none => none
      | ']' :: r2 => some ([v], r2)
      | _ => none

/-- Parse the members of a non-empty JSON object, up to and including the
closing brace. Duplicate keys are kept in order; lookups take the last
occurrence, matching the JavaScript semantics of later keys overwriting. -/
def parseFields : Nat → List Char → Option (List (String × JsonVal) × List Char)
  | 0, _ => none
  | fuel + 1, cs =>
    match skipWs cs with
    | '"' :: rest =>
      match parseStringBody (rest.length + 1) [] rest with
      | none => none
      | some (k, r) =>
        match skipWs r with
        | ':' :: r2 =>
          match parseValue fuel r2 with
          | none => none
          | some (v, r3) =>
            match skipWs r3 with
            | ',' :: r4 =>
              match parseFields fuel r4 with
              | some (fs, r5) => some ((k, v) :: fs, r5)
              | none => none
            | '}' :: r4 => some ([(k, v)], r4)
            | _ => none
        | _ => none
    | _ => none

end

/-- Translated from the JavaScript built-in `JSON.parse`: parse one JSON
text, requiring only whitespace after the value; `none` models the thrown
`SyntaxError`. The fuel `2 * length + 4` exceeds the parser's recursion
depth on any input. -/
def jsonParse (s : String) : Option JsonVal :=
  match parseValue (2 * s.data.length + 4) s.data with
  | some (v, rest) => if (skipWs rest).isEmpty then some v else none
  | none => none

/-- The base64 alphabet value of a character, as used by `atob`. -/
def b64Val (c : Char) : Option Nat :=
  if 'A' ≤ c ∧ c ≤ 'Z' then some (c.toNat - 'A'.toNat)
  else if 'a' ≤ c ∧ c ≤ 'z' then some (c.toNat - 'a'.toNat + 26)
  else if '0' ≤ c ∧ c ≤ '9' then some (c.toNat - '0'.toNat + 52)
  else if c == '+' then some 62
  else if c == '/' then some 63
  else none

/-- ASCII whitespace, which forgiving-base64 decoding removes first. -/
def isB64Ws (c : Char) : Bool :=
  c == ' ' || c == '\t' || c == '\n' || c == '\x0C' || c == '\r'

def b64Vals : List Char → Option (List Nat)
  | [] => some []
  | c :: cs =>
    match b64Val c, b64Vals cs with
    | some v, some vs => some (v :: vs)
    | _, _ => none

/-- When the input length is a multiple of four, up to two trailing padding
characters are removed (forgiving-base64, step 1). -/
def stripB64Pad (cs : List Char) : List Char :=
  if cs.length % 4 == 0 then
    let cs1 := if cs.getLast? == some '=' then cs.dropLast else cs
    if cs1.getLast? == some '=' then cs1.dropLast else cs1
  else cs

/-- Decode a run of base64 alphabet values into bytes: each full group of
four values yields three bytes; a trailing group of two or three yields one
or two bytes, discarding leftover bits. -/
def b64Decode : List Nat → List Nat
  | a :: b :: c :: d :: rest =>
    (a * 4 + b / 16) :: ((b % 16) * 16 + c / 4) :: ((c % 4) * 64 + d) ::
      b64Decode rest
  | [a, b] => [a * 4 + b / 16]
  | [a, b, c] => [a * 4 + b / 16, (b % 16) * 16 + c / 4]
  | _ => []

/-- Translated from the JavaScript built-in `atob` (WHATWG forgiving-base64
decode): strip ASCII whitespace, strip permitted trailing padding, fail on a
remainder-one length or any character outside the base64 alphabet, and
decode the rest to a byte string; `none` models the thrown
`InvalidCharacterError`. -/
def atob (s : String) : Option String :=
  let cs := stripB64Pad (s.data.filter (fun c => !(isB64Ws c)))
  if cs.length % 4 == 1 then none
  else
    match b64Vals cs with
    | none => none
    | some vals => some (String.mk ((b64Decode vals).map Char.ofNat))

def splitOnDotAux (acc : List Char) : List Char → List String
  | [] => [String.mk acc.reverse]
  | c :: rest =>
    if c == '.' then String.mk acc.reverse :: splitOnDotAux [] rest
    else splitOnDotAux (c :: acc) rest

/-- Translated from the JavaScript expression `s.split('.')`: the segments
of `s` between occurrences of the dot separator. -/
def jsSplitDot (s : String) : List String :=
  splitOnDotAux [] s.data

/-- The browser-visible state the API client touches: whether `window` is
defined (false during server-side rendering), the `jwt_token` entry of
`localStorage`, and `window.location.href`. -/
structure ClientState where
  hasWindow : Bool
  jwtToken : Option String
  locationHref : String
deriving DecidableEq, Repr

/-- Translated from frontend/lib/api.ts `getJWT`: `null` when `window` is
undefined, otherwise `localStorage.getItem('jwt_token')`. -/
def getJWT (st : ClientState) : Option String :=
  if st.hasWindow then st.jwtToken else none

/-- Translated from frontend/lib/api.ts `setJWT`. -/
def setJWT (st : ClientState) (token : String) : ClientState :=
  if st.hasWindow then { st with jwtToken := some token } else st

/-- Translated from frontend/lib/api.ts `removeJWT`: a no-op when `window`
is undefined, otherwise `localStorage.removeItem('jwt_token')`. -/
def removeJWT (st : ClientState) : ClientState :=
  if st.hasWindow then { st with jwtToken := none } else st

/-- An inbound request as seen by the Next.js middleware. -/
structure NextRequest where
  url : String
deriving DecidableEq, Repr

/-- What a Next.js middleware can answer: pass the request through,
redirect it, or rewrite it. -/
inductive MiddlewareResult where
  | next
  | redirect (url : String)
  | rewrite (url : String)
deriving DecidableEq, Repr

/-- Translated from frontend/middleware.ts `middleware`: every request is
passed through with `NextResponse.next()`. -/
def middleware (_ : NextRequest) : MiddlewareResult :=
  .next

/-- Translated from frontend/middleware.ts `config.matcher`. -/
def middlewareMatcher : List String :=
  ["/:path*"]

/-- JavaScript truthiness of a JSON value. -/
def truthy : JsonVal → Bool
  | .null => false
  | .bool b => b
  | .num m _ => m != 0
  | .str s => s != ""
  | .arr _ => true
  | .obj _ => true

/-- JavaScript property lookup `v[key]` on a parsed JSON value, as observed
under a surrounding try/catch: on an object the last entry for the key (the
one `JSON.parse` keeps); on anything else `none` — absent properties read
as `undefined`, and the `TypeError` thrown on `null` is indistinguishable
from that once caught. -/
def jsGetProp (v : JsonVal) (key : String) : Option JsonVal :=
  match v with
  | .obj fields => ((fields.reverse).find? (fun kv => kv.1 == key)).map (·.2)
  | _ => none

/-- Translated from frontend/lib/api.ts `getUserIdFromToken`: read the
stored token; take its second dot-separated segment (`undefined` when
missing, which `atob` receives coerced to the string "undefined" and
rejects); base64-decode and JSON-parse it; return `payload.user_id || null`.
Any exception on the way is caught and yields `null`. No signature or
expiry check is performed. -/
def getUserIdFromToken (st : ClientState) : Option JsonVal :=
  match getJWT st with
  | none => none
  | some token =>
    match atob ((jsSplitDot token).getD 1 "undefined") with
    | none => none
    | some decodedStr =>
      match jsonParse decodedStr with
      | none => none
      | some decoded =>
        match jsGetProp decoded "user_id" with
        | none => none
        | some v => if truthy v then some v else none

/-- An HTTP response as the fetch API presents it to the client: the status
code and the raw body text. -/
structure Response where
  status : Nat
  body : String
deriving DecidableEq, Repr

/-- The fetch `Response.ok` flag: status in the 200-299 range. -/
def Response.isOk (r : Response) : Bool :=
  200 ≤ r.status && r.status < 300

/-- How a call into the API client settles: resolve with a parsed JSON
value; resolve with no value (the deleteTask 204 fast path); reject with an
`Error` carrying a literal message; reject with an `Error` whose message is
the JavaScript string coercion of a truthy `detail` value taken from the
error body; or reject with the failure `response.json()` itself raised on a
non-JSON body. -/
inductive Outcome where
  | ok (value : JsonVal)
  | okVoid
  | thrown (message : String)
  | thrownDetail (detail : JsonVal)
  | badJsonBody
  | nullBodyError
deriving Repr

/-- Translated from frontend/lib/api.ts `handleResponse`. On a 401 status:
remove the stored JWT, navigate to `/signin` when `window` exists, and
throw `Error('Unauthorized. Please sign in again.')` — the body is never
read. Otherwise, on a non-ok status, read the body as JSON (a non-JSON body
rejects the call) and throw `Error(error.detail || 'Request failed')`; when
the body parses to `null`, reading `.detail` itself throws a `TypeError`,
modelled as `nullBodyError`. Otherwise resolve with the parsed body. -/
def handleResponse (r : Response) (st : ClientState) : ClientState × Outcome :=
  if r.status == 401 then
    let st1 := removeJWT st
    let st2 :=
      if st1.hasWindow then { st1 with locationHref := "/signin" } else st1
    (st2, .thrown "Unauthorized. Please sign in again.")
  else if !(r.isOk) then
    match jsonParse r.body with
    | none => (st, .badJsonBody)
    | some .null => (st, .nullBodyError)
    | some v =>
      match jsGetProp v "detail" with
      | some d =>
        if truthy d then (st, .thrownDetail d)
        else (st, .thrown "Request failed")
      | none => (st, .thrown "Request failed")
  else
    match jsonParse r.body with
    | none => (st, .badJsonBody)
    | some v => (st, .ok v)

/-- Translated from frontend/lib/api.ts `getTasks` (response-handling path;
the construction of the request URL and headers is upstream of the fetch
and not modelled): the fetched response goes through `handleResponse`. -/
def getTasks (resp : Response) (st : ClientState) : ClientState × Outcome :=
  handleResponse resp st

/-- Translated from frontend/lib/api.ts `getTask` (response-handling path). -/
def getTask (resp : Response) (st : ClientState) : ClientState × Outcome :=
  handleResponse resp st

/-- Translated from frontend/lib/api.ts `createTask` (response-handling
path). -/
def createTask (resp : Response) (st : ClientState) : ClientState × Outcome :=
  handleResponse resp st

/-- Translated from frontend/lib/api.ts `updateTask` (response-handling
path). -/
def updateTask (resp : Response) (st : ClientState) : ClientState × Outcome :=
  handleResponse resp st

/-- Translated from frontend/lib/api.ts `deleteTask` (response-handling
path): a 204 status resolves immediately with no value; any other response
goes through `handleResponse`. -/
def deleteTask (resp : Response) (st : ClientState) : ClientState × Outcome :=
  if resp.status == 204 then (st, .okVoid)
  else handleResponse resp st

/-- Translated from frontend/lib/api.ts `toggleCompleteTask`
(response-handling path). -/
def toggleCompleteTask (resp : Response) (st : ClientState) :
    ClientState × Outcome :=
  handleResponse resp st

/-- Claim C8: although its matcher covers all paths, the middleware returns
NextResponse.next() unchanged for every inbound request — it never
redirects, rewrites, or blocks, so no authentication or route protection is
enforced at the middleware layer. -/
theorem middleware_always_next :
    middlewareMatcher = ["/:path*"] ∧
    ∀ request : NextRequest, middleware request = .next :=
  ⟨rfl, fun _ => rfl⟩

/-- Claim C9 counterexample: for the stored token
"h.eyJ1c2VyX2lkIjoiIn0=.s" the second dot-separated segment base64- and
JSON-decodes to a payload that does carry a user_id field (the empty
string), yet getUserIdFromToken returns none instead of that user_id: the
source's `decoded.user_id || null` collapses every falsy user_id to null,
refuting the claim's "otherwise returns the payload's user_id". -/
theorem getUserIdFromToken_falsy_cex :
    atob "eyJ1c2VyX2lkIjoiIn0=" = some "\x7b\"user_id\":\"\"\x7d" ∧
    jsonParse "\x7b\"user_id\":\"\"\x7d" =
      some (.obj [("user_id", .str "")]) ∧
    jsGetProp (.obj [("user_id", .str "")]) "user_id" = some (.str "") ∧
    getUserIdFromToken ⟨true, some "h.eyJ1c2VyX2lkIjoiIn0=.s", "/"⟩ =
      none ∧
    getUserIdFromToken ⟨true, some "h.eyJ1c2VyX2lkIjoiIn0=.s", "/"⟩ ≠
      some (.str "") :=
  ⟨rfl, rfl, rfl, rfl, fun h => Option.noConfusion h⟩

/-- Claim C9 (amended): getUserIdFromToken is total and never throws; it
returns null when no token is stored, when the token's second dot-separated
segment fails base64 or JSON decoding, or when the decoded payload's
user_id property is absent or falsy (`|| null` collapses falsy values);
otherwise — the property present and truthy — it returns that user_id,
performing no signature and no expiry check. -/
theorem getUserIdFromToken_spec (st : ClientState) :
    (getJWT st = none → getUserIdFromToken st = none) ∧
    (∀ token, getJWT st = some token →
      (atob ((jsSplitDot token).getD 1 "undefined") = none →
        getUserIdFromToken st = none) ∧
      (∀ s, atob ((jsSplitDot token).getD 1 "undefined") = some s →
        (jsonParse s = none → getUserIdFromToken st = none) ∧
        (∀ v, jsonParse s = some v →
          (jsGetProp v "user_id" = none → getUserIdFromToken st = none) ∧
          (∀ u, jsGetProp v "user_id" = some u →
            (truthy u = false → getUserIdFromToken st = none) ∧
            (truthy u = true → getUserIdFromToken st = some u))))) := by
  refine ⟨fun h => ?_, fun token htok => ⟨fun ha => ?_, fun s ha =>
    ⟨fun hj => ?_, fun v hj => ⟨fun hp => ?_, fun u hp =>
      ⟨fun ht => ?_, fun ht => ?_⟩⟩⟩⟩⟩
  · simp only [getUserIdFromToken, h]
  · simp only [getUserIdFromToken, htok, ha]
  · simp only [getUserIdFromToken, htok, ha, hj]
  · simp only [getUserIdFromToken, htok, ha, hj, hp]
  · simp only [getUserIdFromToken, htok, ha, hj, hp]
    rw [if_neg (by simp [ht])]
  · simp only [getUserIdFromToken, htok, ha, hj, hp]
    rw [if_pos ht]

/-- Claim C9 witness: for a stored token whose payload is
`\x7b"user_id":"u1"\x7d`, getUserIdFromToken returns "u1". -/
theorem getUserIdFromToken_spec_witness :
    getUserIdFromToken
        ⟨true, some "h.eyJ1c2VyX2lkIjoidTEifQ==.s", "/"⟩ =
      some (.str "u1") := by
  have h := getUserIdFromToken_spec
    ⟨true, some "h.eyJ1c2VyX2lkIjoidTEifQ==.s", "/"⟩
  exact ((((h.2 "h.eyJ1c2VyX2lkIjoidTEifQ==.s" rfl).2
    "\x7b\"user_id\":\"u1\"\x7d" rfl).2
    (.obj [("user_id", .str "u1")]) rfl).2 (.str "u1") rfl).2 rfl

/-- The state change and outcome of the 401 branch of handleResponse:
remove the stored JWT, navigate to /signin when a window exists, and throw
the uniform unauthorized error. -/
def unauthorizedResult (st : ClientState) : ClientState × Outcome :=
  let st1 := removeJWT st
  (if st1.hasWindow then { st1 with locationHref := "/signin" } else st1,
   .thrown "Unauthorized. Please sign in again.")

theorem handleResponse_401 (r : Response) (st : ClientState)
    (h : r.status = 401) :
    handleResponse r st = unauthorizedResult st := by
  unfold handleResponse
  rw [h, if_pos (show ((401 : Nat) == 401) = true from rfl)]
  rfl

/-- Claim C10: on any 401 response, handleResponse removes the stored JWT
(afterwards getJWT is none) and throws Error('Unauthorized. Please sign in
again.') without reading the body (the result is the same for every body);
and each task API function — getTasks, getTask, createTask, updateTask,
deleteTask (whose 204 fast path a 401 never takes), toggleCompleteTask —
routes its response through this same handler, so the behavior holds
uniformly across the client surface. -/
theorem unauthorized_response_uniform (resp : Response) (st : ClientState)
    (h : resp.status = 401) :
    getJWT (handleResponse resp st).1 = none ∧
    (handleResponse resp st).2 =
      .thrown "Unauthorized. Please sign in again." ∧
    (∀ body', handleResponse ⟨resp.status, body'⟩ st =
      handleResponse resp st) ∧
    getTasks resp st = handleResponse resp st ∧
    getTask resp st = handleResponse resp st ∧
    createTask resp st = handleResponse resp st ∧
    updateTask resp st = handleResponse resp st ∧
    deleteTask resp st = handleResponse resp st ∧
    toggleCompleteTask resp st = handleResponse resp st := by
  refine ⟨?_, ?_, ?_, rfl, rfl, rfl, rfl, ?_, rfl⟩
  · rw [handleResponse_401 resp st h]
    by_cases hw : st.hasWindow <;>
      simp [unauthorizedResult, removeJWT, getJWT, hw]
  · rw [handleResponse_401 resp st h]
    rfl
  · intro body'
    rw [handleResponse_401 ⟨resp.status, body'⟩ st h,
      handleResponse_401 resp st h]
  · simp [deleteTask, h]

/-- Claim C10 witness: a concrete 401 response clears the stored token and
throws the uniform unauthorized error. -/
theorem unauthorized_response_uniform_witness :
    getJWT (handleResponse ⟨401, "ignored"⟩ ⟨true, some "tok", "/"⟩).1 =
      none ∧
    (handleResponse ⟨401, "ignored"⟩ ⟨true, some "tok", "/"⟩).2 =
      .thrown "Unauthorized. Please sign in again." := by
  have h := unauthorized_response_uniform ⟨401, "ignored"⟩
    ⟨true, some "tok", "/"⟩ rfl
  exact ⟨h.1, h.2.1⟩

end Frontend
